import Mathlib

/-!
Verification of the graphql-ws subscription server (DiamondLightSource
graphql-ws-aiohttp): a shallow embedding of `graphql_ws/server.py` and
`graphql_ws/aiohttp.py` with theorems about the envelope codec, the
per-connection operation registry, the subscribe/complete lifecycle and the
aiohttp transport binding.

Conventions of the embedding:
* Python dicts built for the wire are association lists `List (String × Json)`
  in insertion order.
* Awaitable handlers become pure state-transformers on a `ConnState`; the
  messages written to the socket are accumulated in `output` in send order.
* The interleaving of the streaming loop of one operation with the handlers
  that may run concurrently on the same connection (client `complete`,
  connection-close teardown) is modelled by a small-step event system
  (`opStep`), each event one atomic segment of Python code between
  suspension points.
-/

/-- JSON-ish values, enough to express the wire payloads.  Python truthiness
of such a value is `Json.truthy`. -/
inductive Json where
  | null : Json
  | bool (b : Bool) : Json
  | num (n : Int) : Json
  | str (s : String) : Json
  | arr (items : List Json) : Json
  | obj (fields : List (String × Json)) : Json

/-- Python truthiness of a JSON value (`if execution_result.data:`). -/
def Json.truthy : Json → Bool
  | .null => false
  | .bool b => b
  | .num n => n != 0
  | .str s => !s.isEmpty
  | .arr items => !items.isEmpty
  | .obj fields => !fields.isEmpty

/-- The message types of the protocol (`GQLMsgType` in `graphql_ws/protocol.py`).
Modelled from the spec: `protocol.py` is not under `src/`; the spec closes the
enum as `ConnectionInit, ConnectionAck, Subscribe, Next, Error, Complete,
Ping, Pong`. -/
inductive GQLMsgType where
  | connection_init
  | connection_ack
  | subscribe
  | next
  | error
  | complete
  | ping
  | pong
deriving DecidableEq, Repr

/-- The wire string of each message type.  Modelled from the spec:
`protocol.py` is not under `src/`; the spec's wire table lists
`connection_init, connection_ack, subscribe, next, error, complete, ping,
pong`. -/
def GQLMsgType.value : GQLMsgType → String
  | .connection_init => "connection_init"
  | .connection_ack => "connection_ack"
  | .subscribe => "subscribe"
  | .next => "next"
  | .error => "error"
  | .complete => "complete"
  | .ping => "ping"
  | .pong => "pong"

/-- Close code for initialization/internal failure.  Modelled from the spec:
`protocol.py` is not under `src/`; the spec requires one reserved code for
internal/initialization failure, distinct from the duplicate-id code. -/
def WS_INTERNAL_ERROR : Nat := 1011

/-- Close code for a duplicate operation id.  Modelled from the spec:
`protocol.py` is not under `src/`; the spec requires a distinct reserved code
for the duplicate-operation-id protocol violation. -/
def WS_ERROR_ID_ALREADY_EXISTS : Nat := 4409

/-- A wire message: the dict built by `send_message`, in insertion order. -/
abbrev Msg := List (String × Json)

/-- Look up a field of a wire message (first binding wins, as in a dict
whose keys are written once). -/
def msgField (m : Msg) (k : String) : Option Json :=
  match m with
  | [] => none
  | (k', v) :: rest => if k' = k then some v else msgField rest k

/-- Whether a wire message carries a field. -/
def msgHasField (m : Msg) (k : String) : Bool :=
  (msgField m k).isSome

/-- `SubscriptionServer.send_message`, lines 70-85 of `server.py`: the dict
starts with `type`, gains `id` when `op_id is not None`, gains `payload` when
`payload is not None`. -/
def send_message_obj (type : GQLMsgType) (op_id : Option String)
    (payload : Option Json) : Msg :=
  [("type", Json.str type.value)]
    ++ (match op_id with
        | some i => [("id", Json.str i)]
        | none => [])
    ++ (match payload with
        | some p => [("payload", p)]
        | none => [])

/-- An execution result of the engine: optional `data`, list of `errors`
(already in the engine's serialized form; `graphql.format_error` is the
engine's own serialization and is out of scope). -/
structure ExecutionResult where
  data : Option Json
  errors : List Json

/-- Truthiness of `execution_result.data` in Python: `None` is falsy, a
present value is as truthy as the value. -/
def ExecutionResult.dataTruthy (r : ExecutionResult) : Bool :=
  match r.data with
  | some v => v.truthy
  | none => false

/-- The `result` dict built by `SubscriptionServer.send_execution_result`,
lines 96-110 of `server.py`: `data` and `hasNext` are included only when
`execution_result.data` is truthy; `errors` only when the error list is
non-empty. -/
def execution_result_obj (r : ExecutionResult) (has_next : Bool) : Json :=
  Json.obj
    ((if r.dataTruthy then
        [("data", (r.data.getD Json.null)), ("hasNext", Json.bool has_next)]
      else [])
      ++ (if r.errors.isEmpty then [] else [("errors", Json.arr r.errors)]))

/-- The full wire message produced by `send_execution_result`: a `next`
envelope for `op_id` whose payload is `execution_result_obj` (the payload is
a dict, hence never `None`, hence always included by `send_message`). -/
def next_msg (op_id : String) (r : ExecutionResult) (has_next : Bool) : Msg :=
  send_message_obj .next (some op_id) (some (execution_result_obj r has_next))

/-- The terminal `complete` envelope sent from the `finally` block of
`on_subscribe` (lines 233-235 of `server.py`): id present, no payload. -/
def complete_msg (op_id : String) : Msg :=
  send_message_obj .complete (some op_id) none

example : send_message_obj .connection_ack none none
    = [("type", Json.str "connection_ack")] := rfl

example : complete_msg "1"
    = [("type", Json.str "complete"), ("id", Json.str "1")] := rfl

example : next_msg "1" ⟨some (Json.obj [("ping", Json.str "pong")]), []⟩ false
    = [("type", Json.str "next"), ("id", Json.str "1"),
       ("payload", Json.obj [("data", Json.obj [("ping", Json.str "pong")]),
                             ("hasNext", Json.bool false)])] := rfl

example : next_msg "1" ⟨none, [Json.str "boom"]⟩ true
    = [("type", Json.str "next"), ("id", Json.str "1"),
       ("payload", Json.obj [("errors", Json.arr [Json.str "boom"])])] := rfl

/-- Association-list lookup for the operation registry (`connection_context.get`). -/
def lookupOp (ops : List (String × Nat)) (op_id : String) : Option Nat :=
  match ops with
  | [] => none
  | (k, h) :: rest => if k = op_id then some h else lookupOp rest op_id

/-- Registry containment (`op_id in connection_context`). -/
def containsOp (ops : List (String × Nat)) (op_id : String) : Bool :=
  (lookupOp ops op_id).isSome

/-- Registry deletion (`del connection_context[op_id]`). -/
def eraseOp (ops : List (String × Nat)) (op_id : String) : List (String × Nat) :=
  match ops with
  | [] => []
  | (k, h) :: rest => if k = op_id then eraseOp rest op_id
                      else (k, h) :: eraseOp rest op_id

/-- Per-connection mutable state visible to the handlers of
`SubscriptionServer`: the operation registry (`AbstractConnectionContext`'s
mapping access, modelled from the spec's Connection Context capability since
`abc.py` is not under `src/`), the messages sent on the socket in order, the
close code if `close(code)` was called, the log of
`on_operation_complete(op_id)` hook invocations, and the handles on which
`aclose()` was awaited. -/
structure ConnState where
  operations : List (String × Nat)
  output : List Msg
  closeCode : Option Nat
  hookLog : List String
  closedHandles : List Nat

/-- `send_message` as a state transformer: append the encoded dict to the
socket output (lines 70-85 of `server.py`). -/
def send_message (s : ConnState) (op_id : Option String) (type : GQLMsgType)
    (payload : Option Json) : ConnState :=
  { s with output := s.output ++ [send_message_obj type op_id payload] }

/-- `send_error` (lines 87-94): payload `{"message": str(error)}`, type
`ERROR`; the error is modelled by its `str(...)` rendering. -/
def send_error (s : ConnState) (op_id : Option String) (error : String) :
    ConnState :=
  send_message s op_id .error (some (Json.obj [("message", Json.str error)]))

/-- `send_execution_result` (lines 96-113). -/
def send_execution_result (s : ConnState) (op_id : String)
    (execution_result : ExecutionResult) (has_next : Bool) : ConnState :=
  send_message s (some op_id) .next
    (some (execution_result_obj execution_result has_next))

/-- `connection_context.close(code)` of the aiohttp binding, as seen by the
server state: record the close code. -/
def closeConn (s : ConnState) (code : Nat) : ConnState :=
  { s with closeCode := some code }

/-- `SubscriptionServer.unsubscribe` (lines 115-121): look the id up; when a
handle is stored, await its `aclose()` and invoke the
`on_operation_complete` hook.  Note: it neither removes the registry entry
nor sends the `complete` envelope — both happen in the `finally` block of
`on_subscribe` once the stream exits. -/
def unsubscribe (s : ConnState) (op_id : String) : ConnState :=
  match lookupOp s.operations op_id with
  | some h => { s with closedHandles := s.closedHandles ++ [h],
                       hookLog := s.hookLog ++ [op_id] }
  | none => s

/-- The `finally` block of `on_subscribe` (lines 230-235 of `server.py`),
run when the streaming loop of the operation registered with handle `h`
exits: only if the handle currently stored under `op_id` is the one that
just completed is the entry deleted and the terminal `complete` envelope
sent. -/
def finally_block (s : ConnState) (op_id : String) (h : Nat) : ConnState :=
  match lookupOp s.operations op_id with
  | some h2 =>
      if h2 = h then
        { s with operations := eraseOp s.operations op_id,
                 output := s.output ++ [complete_msg op_id] }
      else s
  | none => s

/-- What the execution engine returned for a `subscribe` message: either a
single `ExecutionResult` (not an async iterator) or a live sequence,
identified by its handle and — for the sequential, interference-free
semantics — the finite list of results it will produce. -/
inductive ExecOutcome where
  | single (r : ExecutionResult)
  | stream (h : Nat) (items : List ExecutionResult)

/-- `SubscriptionServer.on_subscribe` (lines 189-235), sequential semantics
(no interleaved handler; the interleaved semantics is `opStep` below):
duplicate id closes the connection with `WS_ERROR_ID_ALREADY_EXISTS` and
returns; a single result is sent as one `next` with `has_next = False` and
no registry entry; a live sequence is registered, each produced value sent
as a `next` with `has_next = True`, then the `finally` block runs. -/
def on_subscribe (s : ConnState) (op_id : String) (outcome : ExecOutcome) :
    ConnState :=
  if containsOp s.operations op_id then
    closeConn s WS_ERROR_ID_ALREADY_EXISTS
  else
    match outcome with
    | .single r => send_execution_result s op_id r false
    | .stream h items =>
        let s1 : ConnState := { s with operations := s.operations ++ [(op_id, h)] }
        let s2 := items.foldl (fun acc r => send_execution_result acc op_id r true) s1
        finally_block s2 op_id h

/-- `SubscriptionServer.on_connection_init` (lines 141-156): run the
`on_connect` hook (whose outcome is the parameter: default no-op succeeds,
an override may raise); on success send `connection_ack` with `op_id = None`
and `payload = None`; on an exception close with `WS_INTERNAL_ERROR`. -/
def on_connection_init (s : ConnState) (hook : Except String Unit) :
    ConnState :=
  match hook with
  | .ok _ => send_message s none .connection_ack none
  | .error _ => closeConn s WS_INTERNAL_ERROR

/-- `SubscriptionServer.on_complete` (lines 237-240). -/
def on_complete (s : ConnState) (op_id : String) : ConnState :=
  unsubscribe s op_id

/-- `SubscriptionServer.on_ping` (lines 242-250): reply `pong` with no id
and no payload. -/
def on_ping (s : ConnState) : ConnState :=
  send_message s none .pong none

/-- A decoded `OperationMessage` (the result of `OperationMessage.loads`;
the codec itself lives in `protocol.py`, outside `src/`, so decoding is a
parameter of `on_message`). -/
structure OperationMessage where
  type : GQLMsgType
  id : Option String

/-- Outcome of `OperationMessage.loads(message)`: the decoded message, or
the decode exception rendered by `str(...)`. -/
inductive DecodeResult where
  | ok (m : OperationMessage)
  | err (e : String)

/-- `SubscriptionServer.on_message` (lines 158-179): on a decode failure
send an `error` envelope with `op_id = None` and return; otherwise dispatch
on the message type (`connection_init`, `subscribe`, `complete` with
`loaded.id or ""`, `ping`; any other type falls through).  The `on_connect`
hook outcome and the engine outcome are parameters. -/
def on_message (s : ConnState) (hook : Except String Unit)
    (outcome : ExecOutcome) (d : DecodeResult) : ConnState :=
  match d with
  | .err e => send_error s none e
  | .ok m =>
      match m.type with
      | .connection_init => on_connection_init s hook
      | .subscribe => on_subscribe s (m.id.getD "") outcome
      | .complete => on_complete s (m.id.getD "")
      | .ping => on_ping s
      | _ => s

/-- State of one registered live-sequence operation, interleaved with the
other handlers of its connection.  `stored` is the registry entry under the
operation's id (`some h` while registered); `handle` is the handle of the
sequence driven by this `on_subscribe` call; `acloseCount` counts the
`aclose()` calls performed by `unsubscribe`; `hookCount` counts the
`on_operation_complete` invocations by `unsubscribe`; `streamDone` is set
when the `async for` loop has exited; `finallyDone` when the `finally`
block has run; `pending` is what the sequence would still produce; `sent`
collects the envelopes sent for this operation, in order. -/
structure OpState where
  stored : Option Nat
  handle : Nat
  acloseCount : Nat
  hookCount : Nat
  streamDone : Bool
  finallyDone : Bool
  pending : List ExecutionResult
  sent : List Msg

/-- The atomic events of the operation's lifecycle.  Each is one segment of
Python between suspension points:
* `yieldItem` — the `async for` body: receive one value, send `next`
  (`has_next = True`) (lines 228-229 of `server.py`);
* `exhaust` — `__anext__` raises `StopAsyncIteration`: the stream ends on
  its own;
* `unsub` — `unsubscribe` runs (from `on_complete` on a client `complete`,
  or from `on_close` teardown): if a handle is stored, `aclose()` it and
  invoke `on_operation_complete`; otherwise no-op (lines 115-121);
* `closeExit` — the `async for` exits because the generator was closed by
  `aclose()`;
* `finallyExit` — the `finally` block (lines 230-235): if the stored handle
  is the one that just completed, delete the entry and send the terminal
  `complete` envelope; else do nothing. -/
inductive OpEvent where
  | yieldItem
  | exhaust
  | unsub
  | closeExit
  | finallyExit
deriving DecidableEq, Repr

/-- One step of the interleaved lifecycle; `none` when the event is not
enabled in the given state. -/
def opStep (op_id : String) (e : OpEvent) (s : OpState) : Option OpState :=
  match e with
  | .yieldItem =>
      if s.streamDone || s.acloseCount != 0 then none
      else match s.pending with
        | [] => none
        | r :: rest =>
            some { s with pending := rest,
                          sent := s.sent ++ [next_msg op_id r true] }
  | .exhaust =>
      if !s.streamDone && s.acloseCount == 0 && s.pending.isEmpty then
        some { s with streamDone := true }
      else none
  | .unsub =>
      match s.stored with
      | some _ => some { s with acloseCount := s.acloseCount + 1,
                                hookCount := s.hookCount + 1 }
      | none => some s
  | .closeExit =>
      if !s.streamDone && s.acloseCount != 0 then
        some { s with streamDone := true }
      else none
  | .finallyExit =>
      if s.streamDone && !s.finallyDone then
        some (if s.stored = some s.handle then
                { s with stored := none, finallyDone := true,
                         sent := s.sent ++ [complete_msg op_id] }
              else { s with finallyDone := true })
      else none

/-- Run a list of events from a state, failing if any event is not enabled. -/
def runOp (op_id : String) (evs : List OpEvent) (s : OpState) : Option OpState :=
  match evs with
  | [] => some s
  | e :: rest =>
      match opStep op_id e s with
      | some s2 => runOp op_id rest s2
      | none => none

/-- The state right after `connection_context[op_id] = result` (line 226):
the sequence with handle `h`, about to produce `items`, has just been
registered. -/
def initOp (h : Nat) (items : List ExecutionResult) : OpState :=
  { stored := some h, handle := h, acloseCount := 0, hookCount := 0,
    streamDone := false, finallyDone := false, pending := items, sent := [] }

/-- Whether a wire message is a terminal `complete` envelope for `op_id`. -/
def isCompleteMsgFor (op_id : String) (m : Msg) : Bool :=
  (match msgField m "type" with
   | some (Json.str t) => t = "complete"
   | _ => false)
  && (match msgField m "id" with
      | some (Json.str i) => i = op_id
      | _ => false)

/-- Whether a wire message is a `next` envelope for `op_id`. -/
def isNextMsgFor (op_id : String) (m : Msg) : Bool :=
  (match msgField m "type" with
   | some (Json.str t) => t = "next"
   | _ => false)
  && (match msgField m "id" with
      | some (Json.str i) => i = op_id
      | _ => false)

/-- How many terminal `complete` envelopes for `op_id` a message list holds. -/
def completeCount (op_id : String) (out : List Msg) : Nat :=
  (out.filter (isCompleteMsgFor op_id)).length

example : completeCount "1" [complete_msg "1"] = 1 := rfl
example : completeCount "1" [next_msg "1" ⟨none, []⟩ true] = 0 := rfl
example : (runOp "1" [.yieldItem, .exhaust, .finallyExit] (initOp 7 [⟨none, []⟩])).map
    (fun s => completeCount "1" s.sent) = some 1 := rfl
example : (runOp "1" [.unsub, .closeExit, .finallyExit] (initOp 7 [⟨none, []⟩, ⟨none, []⟩])).map
    (fun s => completeCount "1" s.sent) = some 1 := rfl
example : (runOp "1" [.unsub, .unsub, .closeExit, .finallyExit, .unsub] (initOp 7 [⟨none, []⟩])).map
    (fun s => (completeCount "1" s.sent, s.hookCount)) = some (1, 2) := rfl

/-- Payload field access: the given field of the message's `payload` object. -/
def payloadField (m : Msg) (k : String) : Option Json :=
  match msgField m "payload" with
  | some (Json.obj fields) => msgField fields k
  | _ => none

/-- The frame types of the aiohttp websocket (`aiohttp.WSMsgType`). -/
inductive WSMsgType where
  | TEXT
  | BINARY
  | PING
  | PONG
  | CLOSE
  | CLOSING
  | CLOSED
  | ERROR
  | CONTINUATION
deriving DecidableEq, Repr

/-- A received websocket frame: its type and (for text frames) its data. -/
structure WSMessage where
  type : WSMsgType
  data : String

/-- The exception raised when the transport signals end-of-stream
(`graphql_ws/server.py`, line 30). -/
inductive ConnectionClosed where
  | mk

/-- `AiohttpConnectionContext.receive` (lines 12-26 of `aiohttp.py`):
return the data of a TEXT frame; raise `ConnectionClosed` on a CLOSED,
CLOSING or ERROR frame; return `None` for anything else. -/
def AiohttpConnectionContext.receive (message : WSMessage) :
    Except ConnectionClosed (Option String) :=
  if message.type = WSMsgType.TEXT then
    Except.ok (some message.data)
  else if message.type = WSMsgType.CLOSED ∨ message.type = WSMsgType.CLOSING
      ∨ message.type = WSMsgType.ERROR then
    Except.error ConnectionClosed.mk
  else
    Except.ok none

example : AiohttpConnectionContext.receive ⟨.TEXT, "hi"⟩ = .ok (some "hi") := rfl
example : AiohttpConnectionContext.receive ⟨.CLOSE, ""⟩ = .ok none := rfl
example : AiohttpConnectionContext.receive ⟨.CLOSING, ""⟩
    = .error ConnectionClosed.mk := rfl
example : AiohttpConnectionContext.receive ⟨.BINARY, "bin"⟩ = .ok none := rfl

/-- C8: For every message type, optional id, and optional payload, the
encoded wire message always contains the `type` field, contains the `id`
field iff the id is non-null, and contains the `payload` field iff the
payload is non-null. -/
theorem c8_send_message_fields (type : GQLMsgType) (op_id : Option String)
    (payload : Option Json) :
    msgHasField (send_message_obj type op_id payload) "type" = true ∧
    (msgHasField (send_message_obj type op_id payload) "id" = true
      ↔ op_id.isSome = true) ∧
    (msgHasField (send_message_obj type op_id payload) "payload" = true
      ↔ payload.isSome = true) := by
  cases op_id <;> cases payload <;>
    simp [msgHasField, msgField, send_message_obj]

/-- C10: For every frame received by the aiohttp binding, `receive` returns
the frame's text when the frame type is TEXT, raises `ConnectionClosed`
exactly when the frame type is CLOSED, CLOSING or ERROR, and returns `None`
for every other frame type. -/
theorem c10_receive_dispatch (message : WSMessage) :
    (AiohttpConnectionContext.receive message = .ok (some message.data)
      ↔ message.type = .TEXT) ∧
    (AiohttpConnectionContext.receive message = .error ConnectionClosed.mk
      ↔ (message.type = .CLOSED ∨ message.type = .CLOSING
         ∨ message.type = .ERROR)) ∧
    (AiohttpConnectionContext.receive message = .ok none
      ↔ ¬(message.type = .TEXT ∨ message.type = .CLOSED
          ∨ message.type = .CLOSING ∨ message.type = .ERROR)) := by
  obtain ⟨t, d⟩ := message
  cases t <;> simp [AiohttpConnectionContext.receive]

/-- The streaming loop of `on_subscribe` (lines 228-229), sequential form:
send each produced value with `has_next = True`. -/
def sendLoop (op_id : String) (items : List ExecutionResult) (s : ConnState) :
    ConnState :=
  items.foldl (fun acc r => send_execution_result acc op_id r true) s

theorem sendLoop_operations (op_id : String) (items : List ExecutionResult)
    (s : ConnState) : (sendLoop op_id items s).operations = s.operations := by
  induction items generalizing s with
  | nil => rfl
  | cons r rest ih =>
      simpa [sendLoop, send_execution_result, send_message] using
        ih { s with output := s.output ++ [next_msg op_id r true] }

theorem sendLoop_closeCode (op_id : String) (items : List ExecutionResult)
    (s : ConnState) : (sendLoop op_id items s).closeCode = s.closeCode := by
  induction items generalizing s with
  | nil => rfl
  | cons r rest ih =>
      simpa [sendLoop, send_execution_result, send_message] using
        ih { s with output := s.output ++ [next_msg op_id r true] }

theorem sendLoop_output (op_id : String) (items : List ExecutionResult)
    (s : ConnState) :
    (sendLoop op_id items s).output
      = s.output ++ items.map (fun r => next_msg op_id r true) := by
  induction items generalizing s with
  | nil => simp [sendLoop]
  | cons r rest ih =>
      simp [sendLoop, send_execution_result, send_message, next_msg] at ih ⊢
      rw [ih]
      simp

theorem lookupOp_eq_none_of_not_contains (ops : List (String × Nat))
    (op_id : String) (h : containsOp ops op_id = false) :
    lookupOp ops op_id = none := by
  cases hl : lookupOp ops op_id with
  | none => rfl
  | some v => rw [containsOp, hl] at h; simp at h

theorem not_mem_keys_of_not_contains (ops : List (String × Nat))
    (op_id : String) (h : containsOp ops op_id = false) :
    op_id ∉ ops.map Prod.fst := by
  induction ops with
  | nil => simp
  | cons p rest ih =>
      obtain ⟨k, v⟩ := p
      by_cases hk : k = op_id
      · subst hk
        rw [containsOp, lookupOp] at h
        simp at h
      · rw [containsOp, lookupOp, if_neg hk] at h
        simp only [List.map_cons, List.mem_cons]
        rintro (rfl | hmem)
        · exact hk rfl
        · exact ih h hmem

theorem eraseOp_sublist (ops : List (String × Nat)) (op_id : String) :
    List.Sublist (eraseOp ops op_id) ops := by
  induction ops with
  | nil => simp [eraseOp]
  | cons p rest ih =>
      obtain ⟨k, v⟩ := p
      rw [eraseOp]
      by_cases hk : k = op_id
      · rw [if_pos hk]
        exact ih.cons (k, v)
      · rw [if_neg hk]
        exact ih.cons₂ (k, v)

theorem finally_block_operations_sublist (s : ConnState) (op_id : String)
    (h : Nat) :
    List.Sublist (finally_block s op_id h).operations s.operations := by
  rw [finally_block]
  cases lookupOp s.operations op_id with
  | none => exact List.Sublist.refl _
  | some h2 =>
      dsimp only
      by_cases hh : h2 = h
      · rw [if_pos hh]
        exact eraseOp_sublist s.operations op_id
      · rw [if_neg hh]

/-- C2: a `Subscribe` whose id is already present in the registry closes the
whole connection with the distinct duplicate-id code, starts no execution
(the state is unchanged but for the close code: no message is sent, no hook
runs, no handle is closed) and never replaces the stored handle (the
registry is untouched); moreover every `on_subscribe` preserves uniqueness
of the registry keys, so at most one running-operation handle exists per
operation id at any time. -/
theorem c2_duplicate_subscribe :
    (∀ s op_id outcome, containsOp s.operations op_id = true →
       on_subscribe s op_id outcome
         = { s with closeCode := some WS_ERROR_ID_ALREADY_EXISTS }) ∧
    WS_ERROR_ID_ALREADY_EXISTS ≠ WS_INTERNAL_ERROR ∧
    (∀ s op_id outcome, (s.operations.map Prod.fst).Nodup →
       ((on_subscribe s op_id outcome).operations.map Prod.fst).Nodup) := by
  refine ⟨?_, by decide, ?_⟩
  · intro s op_id outcome hdup
    simp [on_subscribe, hdup, closeConn]
  · intro s op_id outcome hnd
    by_cases hc : containsOp s.operations op_id = true
    · simpa [on_subscribe, hc, closeConn] using hnd
    · have hc2 : containsOp s.operations op_id = false := by
        simpa using hc
      cases outcome with
      | single r =>
          simpa [on_subscribe, hc2, send_execution_result, send_message]
            using hnd
      | stream h items =>
          rw [on_subscribe]
          simp only [hc2, Bool.false_eq_true, if_false]
          have hops2 :
              (sendLoop op_id items
                { s with operations := s.operations ++ [(op_id, h)] }).operations
                = s.operations ++ [(op_id, h)] :=
            sendLoop_operations op_id items _
          have hnd2 : ((s.operations ++ [(op_id, h)]).map Prod.fst).Nodup := by
            rw [List.map_append]
            rw [List.nodup_append]
            refine ⟨hnd, List.nodup_singleton _, ?_⟩
            intro a ha hb
            simp only [List.map_cons, List.map_nil, List.mem_singleton] at hb
            exact not_mem_keys_of_not_contains s.operations op_id hc2 (hb ▸ ha)
          have hsub :=
            finally_block_operations_sublist
              (sendLoop op_id items
                { s with operations := s.operations ++ [(op_id, h)] }) op_id h
          rw [hops2] at hsub
          exact List.Nodup.sublist (hsub.map Prod.fst) hnd2

/-- An idle connection with one registered operation, id `"3"`, handle 5. -/
def dupConn : ConnState :=
  { operations := [("3", 5)], output := [], closeCode := none,
    hookLog := [], closedHandles := [] }

/-- Witness for C2: on `dupConn`, a second subscribe for id `"3"` closes the
connection with the duplicate-id code and changes nothing else. -/
theorem c2_witness :
    on_subscribe dupConn "3" (.single ⟨none, []⟩)
      = { dupConn with closeCode := some WS_ERROR_ID_ALREADY_EXISTS } :=
  c2_duplicate_subscribe.1 dupConn "3" (.single ⟨none, []⟩) rfl

/-- A fresh, idle connection state. -/
def emptyConn : ConnState :=
  { operations := [], output := [], closeCode := none,
    hookLog := [], closedHandles := [] }

/-- C3: on `ConnectionInit` the server runs the `on_connect` hook with the
message payload; if the hook raises, the connection is closed with
`WS_INTERNAL_ERROR` and nothing is sent (no ack); if it succeeds, exactly
one `connection_ack` envelope is sent, carrying neither an `id` nor a
`payload` field. -/
theorem c3_connection_init (s : ConnState) (hook : Except String Unit) :
    (∀ e, hook = .error e →
       on_connection_init s hook
         = { s with closeCode := some WS_INTERNAL_ERROR }) ∧
    (hook = .ok () →
       on_connection_init s hook
         = { s with output :=
               s.output ++ [send_message_obj .connection_ack none none] } ∧
       msgField (send_message_obj .connection_ack none none) "type"
         = some (Json.str "connection_ack") ∧
       msgHasField (send_message_obj .connection_ack none none) "id" = false ∧
       msgHasField (send_message_obj .connection_ack none none) "payload"
         = false) := by
  constructor
  · intro e he
    subst he
    rfl
  · intro hok
    subst hok
    exact ⟨rfl, rfl, rfl, rfl⟩

/-- Witness for C3: on a fresh connection, a failing hook closes with the
internal-error code and sends nothing; a succeeding hook sends exactly the
bare `connection_ack` envelope. -/
theorem c3_witness :
    on_connection_init emptyConn (.error "auth failed")
      = { emptyConn with closeCode := some WS_INTERNAL_ERROR } ∧
    on_connection_init emptyConn (.ok ())
      = { emptyConn with
            output := [send_message_obj .connection_ack none none] } :=
  ⟨(c3_connection_init emptyConn (.error "auth failed")).1 "auth failed" rfl,
   ((c3_connection_init emptyConn (.ok ())).2 rfl).1⟩

/-- C4: a text message that fails envelope decoding makes the server send
one `error` envelope with no `id` field whose payload is
`{"message": <failure detail>}`; the connection is not closed (the close
code, registry, hooks and handles are untouched) and no further processing
of the message happens (the state changes by that one envelope only). -/
theorem c4_decode_failure (s : ConnState) (hook : Except String Unit)
    (outcome : ExecOutcome) (e : String) :
    on_message s hook outcome (.err e)
      = { s with output := s.output
            ++ [send_message_obj .error none
                  (some (Json.obj [("message", Json.str e)]))] } ∧
    msgHasField
      (send_message_obj .error none
        (some (Json.obj [("message", Json.str e)]))) "id" = false ∧
    msgField
      (send_message_obj .error none
        (some (Json.obj [("message", Json.str e)]))) "type"
      = some (Json.str "error") ∧
    msgField
      (send_message_obj .error none
        (some (Json.obj [("message", Json.str e)]))) "payload"
      = some (Json.obj [("message", Json.str e)]) ∧
    (on_message s hook outcome (.err e)).closeCode = s.closeCode ∧
    (on_message s hook outcome (.err e)).operations = s.operations := by
  exact ⟨rfl, rfl, rfl, rfl, rfl, rfl⟩

/-- C5 (amended): when the execution returns a single result (not an async
iterator), the server sends exactly one `next` envelope for that id — whose
payload carries `hasNext = false` when the result's `data` is non-empty —
creates no registry entry for the id, and sends no `complete` envelope for
it (the lone sent message is not a `complete`, and a later
`complete`/unsubscribe for that id is a no-op since the id was never
registered). -/
theorem c5_single_result (s : ConnState) (op_id : String)
    (r : ExecutionResult) (hnotin : containsOp s.operations op_id = false) :
    on_subscribe s op_id (.single r)
      = { s with output := s.output ++ [next_msg op_id r false] } ∧
    (r.dataTruthy = true →
       payloadField (next_msg op_id r false) "hasNext"
         = some (Json.bool false)) ∧
    msgField (next_msg op_id r false) "type" = some (Json.str "next") ∧
    msgField (next_msg op_id r false) "id" = some (Json.str op_id) ∧
    isCompleteMsgFor op_id (next_msg op_id r false) = false ∧
    (on_subscribe s op_id (.single r)).operations = s.operations ∧
    unsubscribe (on_subscribe s op_id (.single r)) op_id
      = on_subscribe s op_id (.single r) := by
  have hops : (on_subscribe s op_id (.single r)).operations = s.operations := by
    simp [on_subscribe, hnotin, send_execution_result, send_message]
  refine ⟨?_, ?_, rfl, rfl, rfl, hops, ?_⟩
  · simp [on_subscribe, hnotin, send_execution_result, send_message, next_msg]
  · intro hd
    simp [payloadField, next_msg, send_message_obj, msgField,
          execution_result_obj, hd]
  · rw [unsubscribe, hops, lookupOp_eq_none_of_not_contains _ _ hnotin]

/-- Witness for C5: a query result with data `{"ping": "pong"}` on a fresh
connection produces exactly one `next` whose payload holds
`hasNext = false`. -/
theorem c5_witness :
    on_subscribe emptyConn "1"
        (.single ⟨some (Json.obj [("ping", Json.str "pong")]), []⟩)
      = { emptyConn with
            output :=
              [next_msg "1" ⟨some (Json.obj [("ping", Json.str "pong")]), []⟩
                false] } ∧
    payloadField
        (next_msg "1" ⟨some (Json.obj [("ping", Json.str "pong")]), []⟩ false)
        "hasNext" = some (Json.bool false) :=
  ⟨(c5_single_result emptyConn "1"
      ⟨some (Json.obj [("ping", Json.str "pong")]), []⟩ rfl).1,
   ((c5_single_result emptyConn "1"
      ⟨some (Json.obj [("ping", Json.str "pong")]), []⟩ rfl).2).1 rfl⟩

/-- Counterexample to C5 as stated: a single result with no `data` (an
errors-only execution result) is sent as a `next` envelope whose payload
has NO `hasNext` field at all, so the claim's unconditional
"with hasNext = false" fails (`send_execution_result` includes `hasNext`
only when `execution_result.data` is truthy). -/
theorem c5_counterexample :
    on_subscribe emptyConn "1" (.single ⟨none, [Json.str "boom"]⟩)
      = { emptyConn with
            output := [next_msg "1" ⟨none, [Json.str "boom"]⟩ false] } ∧
    msgField (next_msg "1" ⟨none, [Json.str "boom"]⟩ false) "type"
      = some (Json.str "next") ∧
    payloadField (next_msg "1" ⟨none, [Json.str "boom"]⟩ false) "hasNext"
      = none :=
  ⟨rfl, rfl, rfl⟩

theorem isCompleteMsgFor_next (op_id i : String) (r : ExecutionResult)
    (hn : Bool) : isCompleteMsgFor op_id (next_msg i r hn) = false := rfl

theorem isCompleteMsgFor_complete_self (op_id : String) :
    isCompleteMsgFor op_id (complete_msg op_id) = true := by
  simp [isCompleteMsgFor, complete_msg, send_message_obj, msgField,
        GQLMsgType.value]

theorem completeCount_append_next (op_id i : String) (out : List Msg)
    (r : ExecutionResult) (hn : Bool) :
    completeCount op_id (out ++ [next_msg i r hn])
      = completeCount op_id out := by
  simp [completeCount, List.filter_append, isCompleteMsgFor_next]

theorem completeCount_append_complete_self (op_id : String) (out : List Msg) :
    completeCount op_id (out ++ [complete_msg op_id])
      = completeCount op_id out + 1 := by
  simp [completeCount, List.filter_append, isCompleteMsgFor_complete_self]

/-- The invariant of one operation's lifecycle: before the `finally` block
has run, the registry still stores this operation's own handle and no
terminal `complete` has been sent for its id; after it, exactly one has. -/
def opInv (op_id : String) (s : OpState) : Prop :=
  (s.finallyDone = false →
     s.stored = some s.handle ∧ completeCount op_id s.sent = 0) ∧
  (s.finallyDone = true → completeCount op_id s.sent = 1)

theorem opStep_preserves_inv (op_id : String) (e : OpEvent) (s s2 : OpState)
    (hstep : opStep op_id e s = some s2) (hinv : opInv op_id s) :
    opInv op_id s2 := by
  obtain ⟨h1, h2⟩ := hinv
  cases e with
  | yieldItem =>
      rw [opStep] at hstep
      split at hstep
      · cases hstep
      · split at hstep
        · cases hstep
        · cases hstep
          refine ⟨fun hf => ?_, fun hf => ?_⟩
          · obtain ⟨ha, hb⟩ := h1 hf
            exact ⟨ha, by rw [completeCount_append_next]; exact hb⟩
          · rw [completeCount_append_next]
            exact h2 hf
  | exhaust =>
      rw [opStep] at hstep
      split at hstep
      · cases hstep
        exact ⟨h1, h2⟩
      · cases hstep
  | unsub =>
      rw [opStep] at hstep
      split at hstep
      · cases hstep
        exact ⟨h1, h2⟩
      · cases hstep
        exact ⟨h1, h2⟩
  | closeExit =>
      rw [opStep] at hstep
      split at hstep
      · cases hstep
        exact ⟨h1, h2⟩
      · cases hstep
  | finallyExit =>
      rw [opStep] at hstep
      split at hstep
      case isTrue hcond =>
        rw [Bool.and_eq_true, Bool.not_eq_eq_eq_not, Bool.not_true] at hcond
        obtain ⟨hsd, hfd⟩ := hcond
        obtain ⟨hstored, hcount⟩ := h1 hfd
        rw [if_pos hstored] at hstep
        cases hstep
        refine ⟨fun hf => ?_, fun _ => ?_⟩
        · simp at hf
        · rw [completeCount_append_complete_self, hcount]
      case isFalse => cases hstep

theorem runOp_preserves_inv (op_id : String) (evs : List OpEvent)
    (s s2 : OpState) (hrun : runOp op_id evs s = some s2)
    (hinv : opInv op_id s) : opInv op_id s2 := by
  induction evs generalizing s with
  | nil =>
      rw [runOp] at hrun
      cases hrun
      exact hinv
  | cons e rest ih =>
      rw [runOp] at hrun
      cases hstep : opStep op_id e s with
      | none => rw [hstep] at hrun; cases hrun
      | some smid =>
          rw [hstep] at hrun
          exact ih smid hrun (opStep_preserves_inv op_id e s smid hstep hinv)

theorem opInv_init (op_id : String) (h : Nat) (items : List ExecutionResult) :
    opInv op_id (initOp h items) :=
  ⟨fun _ => ⟨rfl, rfl⟩, fun hf => by cases hf⟩

/-- C1: for an operation registered as a live sequence under an id, at most
one terminal `complete` envelope is ever sent for that registration, and
once its `finally` block has run (which every termination mode — client
`complete`, connection-close teardown via `unsubscribe`, or natural
exhaustion — funnels into), exactly one has been sent. -/
theorem c1_exactly_one_complete (op_id : String) (h : Nat)
    (items : List ExecutionResult) (evs : List OpEvent) (s2 : OpState)
    (hrun : runOp op_id evs (initOp h items) = some s2) :
    completeCount op_id s2.sent ≤ 1 ∧
    (s2.finallyDone = true → completeCount op_id s2.sent = 1) := by
  have hinv :=
    runOp_preserves_inv op_id evs (initOp h items) s2 hrun
      (opInv_init op_id h items)
  obtain ⟨h1, h2⟩ := hinv
  refine ⟨?_, h2⟩
  cases hfd : s2.finallyDone with
  | false =>
      have := (h1 hfd).2
      omega
  | true =>
      have := h2 hfd
      omega

/-- Witness for C1: the client-initiated termination (an `unsubscribe`
closing the generator, then the loop exit, then the `finally` block) of an
operation with id `"1"` sends exactly one terminal `complete`. -/
theorem c1_witness :
    completeCount "1"
      (OpState.sent
        ⟨none, 0, 1, 1, true, true, [], [complete_msg "1"]⟩) = 1 :=
  (c1_exactly_one_complete "1" 0 [] [.unsub, .closeExit, .finallyExit]
     ⟨none, 0, 1, 1, true, true, [], [complete_msg "1"]⟩ rfl).2 rfl

/-- The `next` envelopes for `op_id` in a message list, in send order. -/
def nextMsgsFor (op_id : String) (out : List Msg) : List Msg :=
  out.filter (isNextMsgFor op_id)

theorem isNextMsgFor_next_self (op_id : String) (r : ExecutionResult)
    (hn : Bool) : isNextMsgFor op_id (next_msg op_id r hn) = true := by
  simp [isNextMsgFor, next_msg, send_message_obj, msgField, GQLMsgType.value]

theorem isNextMsgFor_complete (op_id i : String) :
    isNextMsgFor op_id (complete_msg i) = false := rfl

theorem nextMsgsFor_append_next_self (op_id : String) (out : List Msg)
    (r : ExecutionResult) (hn : Bool) :
    nextMsgsFor op_id (out ++ [next_msg op_id r hn])
      = nextMsgsFor op_id out ++ [next_msg op_id r hn] := by
  simp [nextMsgsFor, List.filter_append, isNextMsgFor_next_self]

theorem nextMsgsFor_append_complete (op_id i : String) (out : List Msg) :
    nextMsgsFor op_id (out ++ [complete_msg i])
      = nextMsgsFor op_id out := by
  simp [nextMsgsFor, List.filter_append, isNextMsgFor_complete]

/-- Ordering invariant of one operation's lifecycle: the `next` envelopes
sent so far are exactly the already-consumed front of the result sequence,
in production order, each encoded with `has_next = True`. -/
def opNextInv (op_id : String) (items : List ExecutionResult)
    (s : OpState) : Prop :=
  ∃ consumed, items = consumed ++ s.pending ∧
    nextMsgsFor op_id s.sent
      = consumed.map (fun r => next_msg op_id r true)

theorem opStep_preserves_nextInv (op_id : String)
    (items : List ExecutionResult) (e : OpEvent) (s s2 : OpState)
    (hstep : opStep op_id e s = some s2)
    (hinv : opNextInv op_id items s) : opNextInv op_id items s2 := by
  obtain ⟨consumed, hsplit, hsent⟩ := hinv
  cases e with
  | yieldItem =>
      rw [opStep] at hstep
      split at hstep
      · cases hstep
      · split at hstep
        · cases hstep
        · case _ r rest hpend =>
            cases hstep
            refine ⟨consumed ++ [r], ?_, ?_⟩
            · rw [hsplit, hpend]
              simp
            · rw [nextMsgsFor_append_next_self, hsent]
              simp
  | exhaust =>
      rw [opStep] at hstep
      split at hstep
      · cases hstep
        exact ⟨consumed, hsplit, hsent⟩
      · cases hstep
  | unsub =>
      rw [opStep] at hstep
      split at hstep
      · cases hstep
        exact ⟨consumed, hsplit, hsent⟩
      · cases hstep
        exact ⟨consumed, hsplit, hsent⟩
  | closeExit =>
      rw [opStep] at hstep
      split at hstep
      · cases hstep
        exact ⟨consumed, hsplit, hsent⟩
      · cases hstep
  | finallyExit =>
      rw [opStep] at hstep
      split at hstep
      · split at hstep
        · cases hstep
          refine ⟨consumed, hsplit, ?_⟩
          rw [nextMsgsFor_append_complete, hsent]
        · cases hstep
          exact ⟨consumed, hsplit, hsent⟩
      · cases hstep

theorem runOp_preserves_nextInv (op_id : String)
    (items : List ExecutionResult) (evs : List OpEvent) (s s2 : OpState)
    (hrun : runOp op_id evs s = some s2)
    (hinv : opNextInv op_id items s) : opNextInv op_id items s2 := by
  induction evs generalizing s with
  | nil =>
      rw [runOp] at hrun
      cases hrun
      exact hinv
  | cons e rest ih =>
      rw [runOp] at hrun
      cases hstep : opStep op_id e s with
      | none => rw [hstep] at hrun; cases hrun
      | some smid =>
          rw [hstep] at hrun
          exact ih smid hrun
            (opStep_preserves_nextInv op_id items e s smid hstep hinv)

/-- C7 (amended): in any interleaved run of a registered live-sequence
operation, the `next` envelopes sent for its id are exactly the consumed
front of the result sequence, one envelope per produced result, in
production order, each encoded by `send_execution_result` with
`has_next = True` (so the payload carries `hasNext = true` exactly when the
result's `data` is non-empty, per the body-mapping rules). -/
theorem c7_next_production_order (op_id : String) (h : Nat)
    (items : List ExecutionResult) (evs : List OpEvent) (s2 : OpState)
    (hrun : runOp op_id evs (initOp h items) = some s2) :
    ∃ consumed rest, items = consumed ++ rest ∧
      nextMsgsFor op_id s2.sent
        = consumed.map (fun r => next_msg op_id r true) := by
  have hinv :=
    runOp_preserves_nextInv op_id items evs (initOp h items) s2 hrun
      ⟨[], rfl, rfl⟩
  obtain ⟨consumed, hsplit, hsent⟩ := hinv
  exact ⟨consumed, s2.pending, hsplit, hsent⟩

/-- Witness for C7: a two-element feed consumed to exhaustion sends its two
`next` envelopes in production order. -/
theorem c7_witness :
    ∃ consumed rest,
      [(⟨some (Json.num 1), []⟩ : ExecutionResult), ⟨some (Json.num 2), []⟩]
        = consumed ++ rest ∧
      nextMsgsFor "7"
        (OpState.sent
          ⟨none, 0, 0, 0, true, true, [],
           [next_msg "7" ⟨some (Json.num 1), []⟩ true,
            next_msg "7" ⟨some (Json.num 2), []⟩ true, complete_msg "7"]⟩)
        = consumed.map (fun r => next_msg "7" r true) :=
  c7_next_production_order "7" 0
    [⟨some (Json.num 1), []⟩, ⟨some (Json.num 2), []⟩]
    [.yieldItem, .yieldItem, .exhaust, .finallyExit]
    ⟨none, 0, 0, 0, true, true, [],
     [next_msg "7" ⟨some (Json.num 1), []⟩ true,
      next_msg "7" ⟨some (Json.num 2), []⟩ true, complete_msg "7"]⟩ rfl

/-- Counterexample to C7 as stated: a produced result with no `data` (an
errors-only mid-stream result) is sent as a `next` envelope whose payload
has NO `hasNext` field, so the claim's unconditional "with hasNext = true"
fails (`send_execution_result` includes `hasNext` only when the result's
`data` is truthy). -/
theorem c7_counterexample :
    runOp "1" [.yieldItem, .exhaust, .finallyExit]
        (initOp 0 [⟨none, [Json.str "boom"]⟩])
      = some ⟨none, 0, 0, 0, true, true, [],
          [next_msg "1" ⟨none, [Json.str "boom"]⟩ true, complete_msg "1"]⟩ ∧
    isNextMsgFor "1" (next_msg "1" ⟨none, [Json.str "boom"]⟩ true) = true ∧
    payloadField (next_msg "1" ⟨none, [Json.str "boom"]⟩ true) "hasNext"
      = none :=
  ⟨rfl, rfl, rfl⟩

theorem opStep_effect (op_id : String) (e : OpEvent) (s s2 : OpState)
    (hstep : opStep op_id e s = some s2) (hne : e ≠ OpEvent.finallyExit) :
    s2.stored = s.stored ∧
    completeCount op_id s2.sent = completeCount op_id s.sent := by
  cases e with
  | yieldItem =>
      rw [opStep] at hstep
      split at hstep
      · cases hstep
      · split at hstep
        · cases hstep
        · cases hstep
          exact ⟨rfl, completeCount_append_next op_id _ s.sent _ _⟩
  | exhaust =>
      rw [opStep] at hstep
      split at hstep
      · cases hstep
        exact ⟨rfl, rfl⟩
      · cases hstep
  | unsub =>
      rw [opStep] at hstep
      split at hstep
      · cases hstep
        exact ⟨rfl, rfl⟩
      · cases hstep
        exact ⟨rfl, rfl⟩
  | closeExit =>
      rw [opStep] at hstep
      split at hstep
      · cases hstep
        exact ⟨rfl, rfl⟩
      · cases hstep
  | finallyExit => exact absurd rfl hne

/-- C6: natural exhaustion and explicit unsubscription converge on the one
guarded `finally` block of `on_subscribe`: (i) when the stored handle is the
one that just completed, the block removes the registry entry and sends the
terminal `complete` envelope; (ii) when the stored handle is NOT the one
that just completed, neither the removal nor the completion notification is
performed (the state is untouched); (iii) in the interleaved lifecycle no
event other than the `finally` exit ever sends a `complete` for the id or
removes the stored entry — in particular neither the stream's own
exhaustion step nor `unsubscribe` (which only closes the handle and fires
the `on_operation_complete` hook) does. -/
theorem c6_teardown_via_guarded_finally :
    (∀ s op_id h, lookupOp s.operations op_id = some h →
       finally_block s op_id h
         = { s with operations := eraseOp s.operations op_id,
                    output := s.output ++ [complete_msg op_id] }) ∧
    (∀ s op_id h, lookupOp s.operations op_id ≠ some h →
       finally_block s op_id h = s) ∧
    (∀ op_id e s s2, opStep op_id e s = some s2 →
       completeCount op_id s2.sent ≠ completeCount op_id s.sent →
       e = OpEvent.finallyExit) ∧
    (∀ op_id e s s2, opStep op_id e s = some s2 →
       s2.stored ≠ s.stored → e = OpEvent.finallyExit) := by
  refine ⟨?_, ?_, ?_, ?_⟩
  · intro s op_id h hl
    rw [finally_block, hl]
    dsimp only
    rw [if_pos rfl]
  · intro s op_id h hne
    rw [finally_block]
    cases hl : lookupOp s.operations op_id with
    | none => rfl
    | some h2 =>
        dsimp only
        rw [if_neg]
        intro heq
        rw [heq] at hl
        exact hne hl
  · intro op_id e s s2 hstep hcc
    by_cases hfe : e = OpEvent.finallyExit
    · exact hfe
    · exact absurd (opStep_effect op_id e s s2 hstep hfe).2 hcc
  · intro op_id e s s2 hstep hst
    by_cases hfe : e = OpEvent.finallyExit
    · exact hfe
    · exact absurd (opStep_effect op_id e s s2 hstep hfe).1 hst

/-- Witness for C6: on a connection whose registry stores handle 5 under id
`"3"`, the `finally` block of the operation with handle 5 removes the entry
and sends `complete`; the `finally` block of a (stale) operation with a
different handle 6 changes nothing. -/
theorem c6_witness :
    finally_block dupConn "3" 5
      = { dupConn with operations := [], output := [complete_msg "3"] } ∧
    finally_block dupConn "3" 6 = dupConn :=
  ⟨c6_teardown_via_guarded_finally.1 dupConn "3" 5 rfl,
   c6_teardown_via_guarded_finally.2.1 dupConn "3" 6 (by decide)⟩
